/-
  Verification of the GBGCN group-buying recommendation engine.

  Shallow embedding of the core model and trainer code:
    - src/ml/gbgcn_model.py   (GBGCNLayer, CrossViewPropagation, GBGCN.forward,
                               GBGCNLoss, create_heterogeneous_graph)
    - src/ml/gbgcn_trainer.py (GBGCNTrainer.train, predict_item_recommendations,
                               predict_group_success, is_ready)
    - src/api/routers/recommendations.py (recommend_items_for_group_buying)

  Conventions of the embedding:
    - tensors of rationals stand in for float tensors; exact ℚ arithmetic
      models the mathematical behavior of the layer equations;
    - transcendental primitives (sigmoid, log, sqrt) are parameters of the
      embedded functions; where a claim needs a concrete property of the
      true sigmoid we only use properties that hold of it exactly
      (sigmoid 0 = 1/2, range inside (0,1));
    - IEEE special values (NaN, infinities) are modeled by the type Fl,
      with NaN-propagating arithmetic and IEEE comparison semantics
      (NaN compares false against everything);
    - dropout layers are modeled by an arbitrary pointwise function, which
      is the identity in eval mode;
    - Python call semantics matter for the trainer: GBGCN.forward declares
      five required positional parameters, but every trainer call site
      passes a single Data object, so argument binding raises TypeError
      before the forward body runs.  The binding step is modeled
      explicitly (callForwardWith), raised exceptions as PyErr values, and
      fallible code returns Except / carries an Option PyErr.
-/
import Mathlib

namespace GB

/-- Feature / embedding vector of dimension d (a row of a torch tensor). -/
abbrev Vec (d : ℕ) := Fin d → ℚ

/-- Matrix-vector product of the weight of an nn.Linear (without its bias). -/
def matVec {dout din : ℕ} (M : Fin dout → Fin din → ℚ) (v : Vec din) : Vec dout :=
  fun i => ∑ j, M i j * v j

/-! ### Graph convolution layer (GBGCNLayer, gbgcn_model.py lines 22-87)

An edge carries a source node, a target node and a weight.  PyTorch
Geometric's `propagate` with `aggr=mean` and `flow=source_to_target`
averages, at each target node, the messages `edge_weight * x_src`
(`message`, lines 83-87; weight multiplication only when weights are
given, which is the same as weight 1). -/

/-- A weighted directed edge over N nodes. -/
structure WEdge (N : ℕ) where
  src : Fin N
  tgt : Fin N
  w : ℚ
deriving DecidableEq

/-- Pair an edge list with its optional weight tensor: absent weights act
as weight 1 (the `message` function returns `x_j` unchanged then). -/
def toWeighted {N : ℕ} (edges : List (Fin N × Fin N)) (w? : Option (List ℚ)) :
    List (WEdge N) :=
  match w? with
  | none => edges.map (fun e => { src := e.1, tgt := e.2, w := 1 })
  | some ws => (edges.zip ws).map (fun p => { src := p.1.1, tgt := p.1.2, w := p.2 })

/-- One self-loop per node; `add_self_loops` fills their weight with 1. -/
def selfLoops (N : ℕ) : List (WEdge N) :=
  (List.finRange N).map (fun i => { src := i, tgt := i, w := 1 })

/-- Source `add_self_loops(edge_index, edge_weight, num_nodes=N)`: the loops are
appended after the original edges (gbgcn_model.py lines 65-67). -/
def addSelfLoops {N : ℕ} (es : List (WEdge N)) : List (WEdge N) :=
  es ++ selfLoops N

/-- Mean aggregation of weighted neighbor messages at node i
(`propagate` with `aggr=mean`): the mean of `w * x_src` over incoming
edges, and 0 for a node with no incoming edge. -/
def aggMean {N din : ℕ} (x : Fin N → Vec din) (es : List (WEdge N)) (i : Fin N) :
    Vec din :=
  let inc := es.filter (fun e => e.tgt == i)
  if inc.length = 0 then 0
  else ((inc.length : ℚ))⁻¹ • (inc.map (fun e => e.w • x e.src)).sum

/-- Parameters of one GBGCNLayer: `linear_self` and `linear_neigh` are
nn.Linear modules (weight matrix plus bias), and `bias` is the extra
`self.bias` parameter (gbgcn_model.py lines 38-40). -/
structure LayerParams (din dout : ℕ) where
  wSelf : Fin dout → Fin din → ℚ
  bSelf : Vec dout
  wNeigh : Fin dout → Fin din → ℚ
  bNeigh : Vec dout
  bias : Vec dout

/-- The activation `nn.LeakyReLU(0.2)` applied to one entry. -/
def leakyReLU (t : ℚ) : ℚ := if 0 ≤ t then t else t / 5

/-- Source `GBGCNLayer.forward` (gbgcn_model.py lines 54-81): add self-loops,
then `out = dropout(activation(linear_self(x) + linear_neigh(mean of
weighted neighbor messages) + bias))`.  `drop` is the dropout layer as a
pointwise function (identity in eval mode). -/
def layerForward {N din dout : ℕ} (p : LayerParams din dout) (drop : ℚ → ℚ)
    (x : Fin N → Vec din) (edges : List (Fin N × Fin N)) (w? : Option (List ℚ)) :
    Fin N → Vec dout :=
  let es := addSelfLoops (toWeighted edges w?)
  fun i k =>
    drop (leakyReLU
      (matVec p.wSelf (x i) k + p.bSelf k +
        matVec p.wNeigh (aggMean x es i) k + p.bNeigh k + p.bias k))

/-- Layer equation as the spec states it (spec section 4.3): per node,
`σ(W_self·x_i + mean over incoming j of (w_ij · W_neigh·x_j) + b)`
followed by dropout, with the neighborhood taken after self-loops are
added and with b collecting all three bias parameters. -/
def specLayerOut {N din dout : ℕ} (p : LayerParams din dout) (drop : ℚ → ℚ)
    (x : Fin N → Vec din) (edges : List (Fin N × Fin N)) (w? : Option (List ℚ)) :
    Fin N → Vec dout :=
  let es := addSelfLoops (toWeighted edges w?)
  fun i k =>
    let inc := es.filter (fun e => e.tgt == i)
    let m : Vec dout :=
      if inc.length = 0 then 0
      else ((inc.length : ℚ))⁻¹ • (inc.map (fun e => e.w • matVec p.wNeigh (x e.src))).sum
    drop (leakyReLU
      (matVec p.wSelf (x i) k + m k + (p.bSelf k + p.bNeigh k + p.bias k)))

/-! ### Star graphs for the mean-aggregation claim (spec section 8)

A target node 0 with n further nodes, every one of them connected to 0
by an edge of the same weight, all carrying the same feature vector. -/

/-- Features: node 0 carries x0, every other node carries v. -/
def starX {n din : ℕ} (x0 v : Vec din) : Fin (n + 1) → Vec din :=
  fun i => if i = 0 then x0 else v

/-- Edges: node j+1 → node 0 for every j < n. -/
def starEdges (n : ℕ) : List (Fin (n + 1) × Fin (n + 1)) :=
  (List.finRange n).map (fun j => (j.succ, 0))

/-- All n edges carry the same weight w. -/
def starWeights (n : ℕ) (w : ℚ) : List ℚ := List.replicate n w

/-- A concrete 1-dimensional layer: both linear weights 1, all biases 0. -/
def layerParamsEx : LayerParams 1 1 :=
  { wSelf := fun _ _ => 1, bSelf := fun _ => 0
    wNeigh := fun _ _ => 1, bNeigh := fun _ => 0, bias := fun _ => 0 }

/-- The zero vector of dimension 1. -/
def zeroVec : Vec 1 := fun _ => 0

/-! ### Cross-view propagation (CrossViewPropagation, gbgcn_model.py 89-136)

The module acts row-wise on the two embedding matrices, so it is embedded
per node.  `attention_combine` is an nn.Linear from dimension 2d to 1;
its weight row is split here into the half acting on the transformed
initiator embedding and the half acting on the transformed participant
embedding, which is exactly what the concatenated product computes. -/

/-- Parameters of CrossViewPropagation (all nn.Linear weights + biases). -/
structure CrossParams (d : ℕ) where
  attInitW : Fin d → Fin d → ℚ
  attInitB : Vec d
  attPartW : Fin d → Fin d → ℚ
  attPartB : Vec d
  attCombWInit : Vec d
  attCombWPart : Vec d
  attCombB : ℚ
  crossW : Fin d → Fin d → ℚ
  crossB : Vec d

/-- Exact rational properties of the true sigmoid that the embedding may
rely on: value 1/2 at 0, and range strictly inside (0,1). -/
def SigmoidLike (f : ℚ → ℚ) : Prop :=
  f 0 = 1/2 ∧ ∀ t, 0 < f t ∧ f t < 1

/-- A computable function with the `SigmoidLike` properties, used to
instantiate counterexamples at concrete inputs. -/
def ratSigmoid (t : ℚ) : ℚ := 1/2 + t / (2 * (1 + |t|))

/-- Source `CrossViewPropagation.forward` for one node (gbgcn_model.py 108-136):
gate `g = sigmoid(Linear([att_init(init); att_part(part)]))`, then
`updated_init = init + dropout(g · cross_transform(part))` and
`updated_part = part + dropout((1-g) · cross_transform(init))`. -/
def crossViewForward {d : ℕ} (sig drop : ℚ → ℚ) (p : CrossParams d)
    (initE partE : Vec d) : Vec d × Vec d :=
  let ai : Vec d := fun k => matVec p.attInitW initE k + p.attInitB k
  let ap : Vec d := fun k => matVec p.attPartW partE k + p.attPartB k
  let g : ℚ := sig ((∑ j, p.attCombWInit j * ai j) + (∑ j, p.attCombWPart j * ap j) + p.attCombB)
  let ci : Vec d := fun k => g * (matVec p.crossW partE k + p.crossB k)
  let cp : Vec d := fun k => (1 - g) * (matVec p.crossW initE k + p.crossB k)
  (fun k => initE k + drop (ci k), fun k => partE k + drop (cp k))

/-- Concrete cross-view parameters for d = 1: all attention weights and
biases zero (so the gate input is 0), cross_transform the identity. -/
def crossParamsEx : CrossParams 1 :=
  { attInitW := fun _ _ => 0, attInitB := fun _ => 0
    attPartW := fun _ _ => 0, attPartB := fun _ => 0
    attCombWInit := fun _ => 0, attCombWPart := fun _ => 0, attCombB := 0
    crossW := fun _ _ => 1, crossB := fun _ => 0 }

/-- The all-ones embedding vector of dimension 1. -/
def oneVec : Vec 1 := fun _ => 1

/-! ### Float values with NaN and infinities

`GBGCNLoss` mixes tensor means (NaN on an empty tensor) with finite
arithmetic, and `GBGCNTrainer.train` compares validation losses against
`float(inf)` with IEEE semantics honoring NaN.  `Fl` models exactly
these special values over exact rationals. -/

/-- A float value: NaN, +inf, -inf, or a finite rational. -/
inductive Fl where
  | nan : Fl
  | pinf : Fl
  | ninf : Fl
  | num : ℚ → Fl
deriving DecidableEq

/-- IEEE addition on `Fl` (NaN propagates, inf + (-inf) = NaN). -/
def Fl.add : Fl → Fl → Fl
  | .nan, _ => .nan
  | _, .nan => .nan
  | .pinf, .ninf => .nan
  | .ninf, .pinf => .nan
  | .pinf, _ => .pinf
  | _, .pinf => .pinf
  | .ninf, _ => .ninf
  | _, .ninf => .ninf
  | .num a, .num b => .num (a + b)

/-- Multiplication of an `Fl` by a finite scalar (0 * inf = NaN). -/
def Fl.smul (c : ℚ) : Fl → Fl
  | .nan => .nan
  | .pinf => if 0 < c then .pinf else if c < 0 then .ninf else .nan
  | .ninf => if 0 < c then .ninf else if c < 0 then .pinf else .nan
  | .num a => .num (c * a)

/-- IEEE strict less-than on `Fl`: any comparison against NaN is false. -/
def Fl.lt : Fl → Fl → Bool
  | .nan, _ => false
  | _, .nan => false
  | .pinf, _ => false
  | .ninf, .ninf => false
  | .ninf, _ => true
  | .num _, .pinf => true
  | .num _, .ninf => false
  | .num a, .num b => decide (a < b)

/-- Mean of a tensor of rationals: NaN when the tensor is empty (as
`torch.mean` / mean-reduction over zero elements is 0/0). -/
def meanFl (l : List ℚ) : Fl :=
  if l.length = 0 then .nan else .num (l.sum / (l.length : ℚ))

/-! ### Loss composer (GBGCNLoss.forward, gbgcn_model.py 373-420)

`log` and `sigmoid` are parameters (`blog`, `sig`), as is the square
root inside `torch.norm` (`rsqrt`).  The prediction tensors and masks
are 1-dimensional and row-aligned as in the source. -/

/-- The fields of the `predictions` dictionary that the loss reads. -/
structure Predictions where
  recScore : List ℚ
  succProb : List ℚ
  socialEmb : Option (List (List ℚ))

/-- Boolean-mask indexing `tensor[mask]`. -/
def maskSelect (xs : List ℚ) (mask : List Bool) : List ℚ :=
  ((xs.zip mask).filter (fun p => p.2)).map (fun p => p.1)

/-- BPR term: mean over the batch of `-log(sigmoid(pos - neg))`
(gbgcn_model.py line 391). -/
def bprLoss (sig blog : ℚ → ℚ) (pos neg : List ℚ) : Fl :=
  meanFl ((pos.zip neg).map (fun pr => -(blog (sig (pr.1 - pr.2)))))

/-- Pointwise binary cross-entropy `-(y·log p + (1-y)·log(1-p))`. -/
def bce (blog : ℚ → ℚ) (p y : ℚ) : ℚ :=
  -(y * blog p + (1 - y) * blog (1 - p))

/-- Group-success classification term (gbgcn_model.py 394-401): 0 when
the `success_labels` key is absent, otherwise the mean binary
cross-entropy of `success_probability` against the labels. -/
def successLoss (blog : ℚ → ℚ) (probs : List ℚ) : Option (List ℚ) → Fl
  | none => .num 0
  | some ys => meanFl ((probs.zip ys).map (fun py => bce blog py.1 py.2))

/-- Social regularization (gbgcn_model.py 404-406): 0 when the
`user_social_emb` key is absent, otherwise the mean of the row-wise
L2 norms `torch.norm(emb, p=2, dim=1).mean()`. -/
def socialReg (rsqrt : ℚ → ℚ) : Option (List (List ℚ)) → Fl
  | none => .num 0
  | some rows => meanFl (rows.map (fun r => rsqrt ((r.map (fun a => a * a)).sum)))

/-- Source `GBGCNLoss.forward` total (gbgcn_model.py 409-413):
`bpr_loss + beta * success_loss + 0.001 * social_reg`. -/
def gbgcnLossTotal (beta : ℚ) (sig blog rsqrt : ℚ → ℚ) (preds : Predictions)
    (posMask negMask : List Bool) (labels? : Option (List ℚ)) : Fl :=
  let pos := maskSelect preds.recScore posMask
  let neg := maskSelect preds.recScore negMask
  let bpr := bprLoss sig blog pos neg
  let sl := successLoss blog preds.succProb labels?
  let reg := socialReg rsqrt preds.socialEmb
  (bpr.add (Fl.smul beta sl)).add (Fl.smul (1/1000) reg)

/-- Ranking term as the spec words it: mean over the batch of
`-log(sigmoid(score_pos - score_neg))`. -/
def specRankingTerm (sig blog : ℚ → ℚ) (pos neg : List ℚ) : ℚ :=
  (((pos.zip neg).map (fun pr => -(blog (sig (pr.1 - pr.2))))).sum) /
    (((pos.zip neg).length : ℚ))

/-- Classification term as the spec words it: binary cross-entropy over
the labeled pairs only, zero contribution when no labels are present. -/
def specClsTerm (blog : ℚ → ℚ) (probs : List ℚ) : Option (List ℚ) → ℚ
  | none => 0
  | some ys =>
    (((probs.zip ys).map (fun py => bce blog py.1 py.2)).sum) /
      (((probs.zip ys).length : ℚ))

/-- Regularization term as the spec words it: mean L2 norm of the
social embeddings in the batch. -/
def specRegTerm (rsqrt : ℚ → ℚ) (rows : List (List ℚ)) : ℚ :=
  ((rows.map (fun r => rsqrt ((r.map (fun a => a * a)).sum))).sum) / ((rows.length : ℚ))

/-- The trainer state that `train` can mutate (gbgcn_trainer.py 23-44):
the in-memory last_training_time and the number of `save_model` calls
that overwrote the persisted checkpoint file. -/
structure TrainerState where
  lastTrainingTime : Option ℕ
  modelSaves : ℕ
deriving DecidableEq

/-! ### Forward output dictionary and the trainer prediction paths

`GBGCN.forward` returns a dictionary with exactly seven keys
(gbgcn_model.py 322-330).  The values are whatever tensors the forward
pass computed; the trainer paths only ever inspect the keys, so the
dictionary is embedded with its exact key list and the computed tensors
as parameters.

Crucially, the trainer never manages to obtain that dictionary: every
one of its call sites — `self.model(train_data)` (line 184),
`self.model(eval_data)` (line 208), `self.model(user_data)` (line 302),
`self.model(group_data)` (line 338) — passes a single positional
argument, while `GBGCN.forward` (gbgcn_model.py 252-258) declares five
required positional parameters (user_ids, item_ids, and the three edge
indices; only social_edge_weights has a default).  Python's argument
binding therefore raises TypeError before the forward body runs.  The
embedding models this binding step explicitly (`callForwardWith`), and
raised exceptions as values of `PyErr`. -/

/-- A tensor value held in the output dictionary. -/
inductive TVal where
  | vec : List ℚ → TVal
  | mat : List (List ℚ) → TVal
deriving DecidableEq

/-- The dictionary literal returned by `GBGCN.forward`
(gbgcn_model.py 322-330), with its seven keys in source order. -/
def gbgcnForwardDict (recScore succProb : List ℚ)
    (uInit uPart uSoc itemE comb : List (List ℚ)) : List (String × TVal) :=
  [("recommendation_score", .vec recScore),
   ("success_probability", .vec succProb),
   ("user_initiator_emb", .mat uInit),
   ("user_participant_emb", .mat uPart),
   ("user_social_emb", .mat uSoc),
   ("item_emb", .mat itemE),
   ("combined_user_emb", .mat comb)]

/-- Python `dict.get(key)` without a default: first binding of the key. -/
def dictGet (d : List (String × TVal)) (k : String) : Option TVal :=
  List.lookup k d

/-- Indices of the k largest scores, ties and order as produced by a
descending sort (`torch.topk`). -/
def topKIdx (scores : List ℚ) (k : ℕ) : List ℕ :=
  ((scores.enum.insertionSort (fun a b => b.2 ≤ a.2)).map (fun p => p.1)).take k

/-- A Python exception raised by the embedded trainer code. -/
inductive PyErr where
  | typeError : PyErr
  | unboundLocalError : PyErr
  | attributeError : PyErr
deriving DecidableEq

/-- Number of required positional parameters of `GBGCN.forward`:
user_ids, item_ids, initiator_edge_index, participant_edge_index,
social_edge_index (gbgcn_model.py 252-258). -/
def forwardRequiredArgs : ℕ := 5

/-- Number of positional parameters including the optional
social_edge_weights. -/
def forwardMaxArgs : ℕ := 6

/-- Python's binding of a positional-argument list to `GBGCN.forward`:
with fewer than the five required (or more than six) positional
arguments the call raises TypeError before the body runs; otherwise the
body runs and returns its output dictionary `out`. -/
def callForwardWith (argsGiven : ℕ) (out : List (String × TVal)) :
    Except PyErr (List (String × TVal)) :=
  if forwardRequiredArgs ≤ argsGiven ∧ argsGiven ≤ forwardMaxArgs then .ok out
  else .error .typeError

/-- The post-call code of `GBGCNTrainer.predict_item_recommendations`
(gbgcn_trainer.py 304-325), applied to a forward output dictionary:
read `outputs.get('item_recommendations', torch.zeros(0))`, and only
when that tensor is non-empty build the top-k list; otherwise return
the empty list. -/
def topKFromOutputs (out : List (String × TVal)) (k : ℕ) :
    List (ℕ × ℚ) :=
  let itemScores : List ℚ :=
    match dictGet out "item_recommendations" with
    | some (.vec v) => v
    | some (.mat _) => []
    | none => []
  if 0 < itemScores.length then
    (topKIdx itemScores k).map (fun i => (i, itemScores.getD i 0))
  else []

/-- Source `GBGCNTrainer.predict_item_recommendations`
(gbgcn_trainer.py 291-325): `_prepare_user_data` never raises (its
broad except falls back to dummy data, lines 448-455), then
`outputs = self.model(user_data)` passes ONE positional argument to the
five-parameter forward; the function has no try/except, so the raised
TypeError propagates to the caller.  `out` is the dictionary the
forward body would return were the call ever bound successfully. -/
def predictItemRecommendationsRun (out : List (String × TVal)) (k : ℕ) :
    Except PyErr (List (ℕ × ℚ)) :=
  match callForwardWith 1 out with
  | .error e => .error e
  | .ok o => .ok (topKFromOutputs o k)

/-- The post-call code of `GBGCNTrainer.predict_group_success`
(gbgcn_trainer.py 340-346), applied to a forward output dictionary:
`outputs.get('group_success_prob', 0.5)`, turned into a float. -/
def groupSuccessFromOutputs (out : List (String × TVal)) : ℚ :=
  match dictGet out "group_success_prob" with
  | some (.vec v) => v.headD (1/2)
  | some (.mat _) => 1/2
  | none => 1/2

/-- Source `GBGCNTrainer.predict_group_success`
(gbgcn_trainer.py 327-346): `_prepare_group_data` never raises (broad
except with dummy-data fallback, lines 457-474), then
`outputs = self.model(group_data)` passes ONE positional argument; the
TypeError propagates. -/
def predictGroupSuccessRun (out : List (String × TVal)) :
    Except PyErr ℚ :=
  match callForwardWith 1 out with
  | .error e => .error e
  | .ok o => .ok (groupSuccessFromOutputs o)

/-! ### Trainer training cycle (GBGCNTrainer.train, gbgcn_trainer.py 172-284)

One cycle: `best_val_loss = inf`; per epoch, run `train_epoch` then
`evaluate`; if the epoch's validation loss is strictly below the best
(IEEE comparison), save the model and reset patience, else bump
patience and stop once it reaches `settings.PATIENCE`; after the loop,
`self.last_training_time = datetime.utcnow()` (line 277).  `train` has
no try/except: an exception raised inside the loop propagates, keeping
whatever state the trainer had at that point (earlier saves persist,
the line-277 timestamp write is skipped).  `_prepare_training_data`
never raises (broad except with dummy-data fallback, lines 421-436). -/

/-- Source `GBGCNTrainer.train_epoch` (gbgcn_trainer.py 172-201):
`zero_grad`, then `outputs = self.model(train_data)` — one positional
argument, so TypeError; and even were the call bound, `loss =
self.criterion(outputs, train_data)` yields the loss DICTIONARY that
`GBGCNLoss.forward` returns, so `loss.backward()` raises
AttributeError.  No path returns a loss value. -/
def trainEpochRun (argsGiven : ℕ) (out : List (String × TVal)) :
    Except PyErr ℚ :=
  match callForwardWith argsGiven out with
  | .error e => .error e
  | .ok _ => .error .attributeError

/-- Source `GBGCNTrainer.evaluate` (gbgcn_trainer.py 203-219): same
shape — `self.model(eval_data)` with one positional argument raises
TypeError; past that, `loss.item()` on the criterion's dictionary
raises AttributeError.  No path returns a validation loss. -/
def evaluateRun (argsGiven : ℕ) (out : List (String × TVal)) :
    Except PyErr Fl :=
  match callForwardWith argsGiven out with
  | .error e => .error e
  | .ok _ => .error .attributeError

/-- The epoch loop of `train` (gbgcn_trainer.py 238-267): returns the
number of `save_model` calls so far, paired with the exception that
ended the loop, if any.  Both called model paths pass one positional
argument, as in the source. -/
def trainLoopRun (patience : ℕ) (out : List (String × TVal)) :
    ℕ → Fl → ℕ → ℕ → ℕ × Option PyErr
  | 0, _, _, saves => (saves, none)
  | n + 1, best, pat, saves =>
    match trainEpochRun 1 out with
    | .error e => (saves, some e)
    | .ok _ =>
      match evaluateRun 1 out with
      | .error e => (saves, some e)
      | .ok v =>
        if Fl.lt v best then trainLoopRun patience out n v 0 (saves + 1)
        else if patience ≤ pat + 1 then (saves, none)
        else trainLoopRun patience out n best (pat + 1) saves

/-- Source `GBGCNTrainer.train` (gbgcn_trainer.py 221-284): run the
epoch loop; on an exception the trainer state keeps its earlier saves
and the timestamp write is skipped (the exception propagates); on
normal completion, `self.last_training_time = datetime.utcnow()`.
With `num_epochs = 0` the loop body never binds `epoch`, so line 272
(`'num_epochs_trained': epoch + 1`) raises UnboundLocalError. -/
def trainerTrainRun (st : TrainerState) (now : ℕ) (numEpochs patience : ℕ)
    (out : List (String × TVal)) : TrainerState × Option PyErr :=
  match numEpochs with
  | 0 => (st, some .unboundLocalError)
  | n + 1 =>
    match trainLoopRun patience out (n + 1) Fl.pinf 0 0 with
    | (saves, some e) =>
      ({ st with modelSaves := st.modelSaves + saves }, some e)
    | (saves, none) =>
      ({ lastTrainingTime := some now, modelSaves := st.modelSaves + saves },
        none)

/-! ### Trainer initialization and readiness (gbgcn_trainer.py 46-60, 366-368)

`initialize` loads the persisted checkpoint when the model file exists
and otherwise calls `create_new_model`, which builds a randomly
initialized model; both branches end with `is_initialized = True` and a
model object present.  `is_ready` checks exactly those two facts. -/

/-- The observable trainer flags after `initialize`. -/
structure TrainerInit where
  isInitialized : Bool
  hasModel : Bool
deriving DecidableEq

/-- Source `GBGCNTrainer.initialize`: load when the checkpoint file exists,
else create a fresh model; either way the trainer ends initialized
with a model in memory. -/
def initializeTrainer (modelFileExists : Bool) : TrainerInit :=
  if modelFileExists then { isInitialized := true, hasModel := true }
  else { isInitialized := true, hasModel := true }

/-- Source `GBGCNTrainer.is_ready`: initialized and model present. -/
def trainerIsReady (st : TrainerInit) : Bool :=
  st.isInitialized && st.hasModel

/-! ### Serving-layer recommendation query
(recommend_items_for_group_buying, recommendations.py 54-102)

The endpoint never consults the model: it selects the active items,
orders them by `popularity_score` descending and truncates to the
requested limit. -/

/-- The item columns the endpoint query reads. -/
structure ItemRow where
  id : ℕ
  popularity : ℚ
  isActive : Bool
deriving DecidableEq

/-- Descending popularity order used by `ORDER BY popularity_score DESC`. -/
def popGe (a b : ItemRow) : Prop := b.popularity ≤ a.popularity

instance : DecidableRel popGe :=
  fun a b => inferInstanceAs (Decidable (b.popularity ≤ a.popularity))

instance : IsTotal ItemRow popGe :=
  ⟨fun a b => (le_total b.popularity a.popularity)⟩

instance : IsTrans ItemRow popGe :=
  ⟨fun _ _ _ h1 h2 => le_trans h2 h1⟩

/-- The endpoint's item query: active items, popularity descending,
first `limit` rows. -/
def recommendItemsEndpoint (items : List ItemRow) (limit : ℕ) : List ItemRow :=
  ((items.filter (fun it => it.isActive)).insertionSort popGe).take limit

/-! ### Graph construction routing (create_heterogeneous_graph,
gbgcn_model.py 439-451) -/

/-- The source's initiator-type test:
`interaction_type in ['create_group', 'initiate']`. -/
def isInitiatorType (ty : String) : Bool :=
  ty == "create_group" || ty == "initiate"

/-- The routing loop of `create_heterogeneous_graph`: each
`(user, item, type)` lands in the initiator edge list when its type is
an initiator type, otherwise in the participant edge list. -/
def routeInteractions : List (ℕ × ℕ × String) → List (ℕ × ℕ) × List (ℕ × ℕ)
  | [] => ([], [])
  | (u, i, ty) :: rest =>
    let pr := routeInteractions rest
    if isInitiatorType ty then ((u, i) :: pr.1, pr.2)
    else (pr.1, (u, i) :: pr.2)

end GB

namespace GB

/-! ## Helper lemmas -/

theorem matVec_zero {dout din : ℕ} (M : Fin dout → Fin din → ℚ) :
    matVec M (0 : Vec din) = 0 := by
  funext i
  simp [matVec]

theorem matVec_smul {dout din : ℕ} (M : Fin dout → Fin din → ℚ) (c : ℚ) (v : Vec din) :
    matVec M (c • v) = c • matVec M v := by
  funext i
  simp [matVec, Finset.mul_sum, mul_left_comm]

theorem matVec_add {dout din : ℕ} (M : Fin dout → Fin din → ℚ) (a b : Vec din) :
    matVec M (a + b) = matVec M a + matVec M b := by
  funext i
  simp [matVec, mul_add, Finset.sum_add_distrib]

theorem matVec_listSum {dout din : ℕ} (M : Fin dout → Fin din → ℚ) (l : List (Vec din)) :
    matVec M l.sum = (l.map (matVec M)).sum := by
  induction l with
  | nil => simpa using matVec_zero M
  | cons a t ih => simp [matVec_add, ih]

/-- Pushing a linear map through the mean aggregation. -/
theorem matVec_aggMean {N din dout : ℕ} (M : Fin dout → Fin din → ℚ)
    (x : Fin N → Vec din) (es : List (WEdge N)) (i : Fin N) :
    matVec M (aggMean x es i)
      = (if (es.filter (fun e => e.tgt == i)).length = 0 then (0 : Vec dout)
         else (((es.filter (fun e => e.tgt == i)).length : ℚ))⁻¹ •
           ((es.filter (fun e => e.tgt == i)).map
             (fun e => e.w • matVec M (x e.src))).sum) := by
  unfold aggMean
  by_cases h : (es.filter (fun e => e.tgt == i)).length = 0
  · simp only [h, if_pos rfl, if_true]
    simpa using matVec_zero M
  · rw [if_neg h, if_neg h, matVec_smul, matVec_listSum, List.map_map]
    have hfun : (matVec M ∘ fun e : WEdge N => e.w • x e.src)
        = fun e : WEdge N => e.w • matVec M (x e.src) := by
      funext e
      exact matVec_smul M e.w (x e.src)
    rw [hfun]

/-! ## Claim C6 -/

/-- Claim C6 (confirmed): one GBGCNLayer computes, per node,
`σ(W_self·x_i + mean over incoming j of (w_ij · W_neigh·x_j) + b)`
followed by dropout, with a self-loop added for every node before the
aggregation, where σ is the leaky rectifier with slope 1/5 and b
collects the three bias parameters of the layer. -/
theorem layer_equation_matches_spec {N din dout : ℕ} (p : LayerParams din dout)
    (drop : ℚ → ℚ) (x : Fin N → Vec din) (edges : List (Fin N × Fin N))
    (w? : Option (List ℚ)) :
    layerForward p drop x edges w? = specLayerOut p drop x edges w? := by
  funext i k
  simp only [layerForward, specLayerOut]
  rw [matVec_aggMean]
  congr 1
  congr 1
  ring

/-! ## Claim C5 -/

theorem toWeighted_map_const {N : ℕ} {α : Type} (l : List α)
    (f : α → Fin N × Fin N) (w : ℚ) :
    toWeighted (l.map f) (some (List.replicate l.length w))
      = l.map (fun a => { src := (f a).1, tgt := (f a).2, w := w }) := by
  induction l with
  | nil => rfl
  | cons a t ih =>
    simp only [List.map_cons, List.length_cons, List.replicate, toWeighted,
      List.zip_cons_cons] at *
    exact congrArg _ ih

/-- The incoming edge list at the center of the star graph: the n
identical-weight edges followed by the center's own self-loop. -/
theorem star_incoming (n : ℕ) (w : ℚ) :
    (addSelfLoops (toWeighted (starEdges n) (some (starWeights n w)))).filter
        (fun e => e.tgt == (0 : Fin (n + 1)))
      = (List.finRange n).map
          (fun j => { src := j.succ, tgt := 0, w := w }) ++
        [{ src := 0, tgt := 0, w := 1 }] := by
  have hsw : starWeights n w = List.replicate (List.finRange n).length w := by
    rw [List.length_finRange]
    rfl
  rw [addSelfLoops, starEdges, hsw, toWeighted_map_const, List.filter_append]
  congr 1
  · rw [List.filter_eq_self]
    intro e he
    rcases List.mem_map.mp he with ⟨j, _, rfl⟩
    simp
  · have hloops : selfLoops (n + 1)
        = ({ src := 0, tgt := 0, w := 1 } : WEdge (n + 1)) ::
          (List.finRange n).map (fun j => { src := j.succ, tgt := j.succ, w := 1 }) := by
      rw [selfLoops, List.finRange_succ_eq_map, List.map_cons, List.map_map]
      rfl
    have hnil : ((List.finRange n).map
        (fun j : Fin n =>
          ({ src := j.succ, tgt := j.succ, w := 1 } : WEdge (n + 1)))).filter
          (fun e => e.tgt == (0 : Fin (n + 1))) = [] := by
      rw [List.filter_eq_nil_iff]
      intro e he
      rcases List.mem_map.mp he with ⟨j, _, rfl⟩
      simp [Fin.succ_ne_zero j]
    have htrue : (({ src := 0, tgt := 0, w := 1 } : WEdge (n + 1)).tgt ==
        (0 : Fin (n + 1))) = true := by
      simp
    rw [hloops, List.filter_cons, htrue, if_pos rfl, hnil]

theorem sum_map_const_vec {α : Type} {d : ℕ} (l : List α) (c : Vec d) :
    (l.map (fun _ => c)).sum = l.length • c := by
  induction l with
  | nil => simp
  | cons a t ih =>
    rw [List.map_cons, List.sum_cons, ih, List.length_cons, succ_nsmul]
    exact add_comm _ _

/-- The mean aggregation at the center of the star graph: the self-loop
enters the mean, giving `(n·(w·v) + x0) / (n+1)`. -/
theorem star_aggMean {din n : ℕ} (x0 v : Vec din) (w : ℚ) :
    aggMean (starX x0 v)
        (addSelfLoops (toWeighted (starEdges n) (some (starWeights n w)))) 0
      = (((n : ℚ) + 1))⁻¹ • ((n : ℚ) • (w • v) + x0) := by
  simp only [aggMean]
  rw [star_incoming]
  have hlen : ((List.finRange n).map
      (fun j : Fin n => ({ src := j.succ, tgt := 0, w := w } : WEdge (n + 1))) ++
        [({ src := 0, tgt := 0, w := 1 } : WEdge (n + 1))]).length = n + 1 := by
    simp
  rw [hlen, if_neg (by omega), List.map_append, List.sum_append, List.map_map]
  have hconst : ((fun e : WEdge (n + 1) => e.w • starX x0 v e.src) ∘
      (fun j : Fin n => ({ src := j.succ, tgt := 0, w := w } : WEdge (n + 1))))
        = fun _ : Fin n => w • v := by
    funext j
    simp [starX, Fin.succ_ne_zero j]
  rw [hconst, sum_map_const_vec, List.length_finRange,
    Nat.cast_smul_eq_nsmul ℚ n (w • v)]
  have hloop : ([({ src := 0, tgt := 0, w := 1 } : WEdge (n + 1))].map
      (fun e => e.w • starX x0 v e.src)).sum = x0 := by
    simp [starX]
  rw [hloop]
  norm_cast

/-- Claim C5 (amended, see the counterexample below): with n neighbors
of identical weight w and identical feature v, the layer output at the
center is the self-transform of x0 plus the neighbor-transform of the
mean `(n·(w·v) + x0)/(n+1)` — the added self-loop participates in the
mean, so the aggregated value depends on the neighbor count n and
reduces to the shared value w·v only when x0 = w·v. -/
theorem layer_star_neighbors_output {din dout n : ℕ} (p : LayerParams din dout)
    (drop : ℚ → ℚ) (x0 v : Vec din) (w : ℚ) :
    layerForward p drop (starX x0 v) (starEdges n) (some (starWeights n w)) 0
      = fun k => drop (leakyReLU
          (matVec p.wSelf x0 k + p.bSelf k +
            matVec p.wNeigh ((((n : ℚ) + 1))⁻¹ • ((n : ℚ) • (w • v) + x0)) k +
            p.bNeigh k + p.bias k)) := by
  funext k
  simp only [layerForward]
  rw [star_aggMean]
  have hx0 : starX (n := n) x0 v 0 = x0 := by
    simp [starX]
  rw [hx0]

/-- Counterexample to claim C5 as stated: with the 1-dimensional layer
whose linear weights are 1 and biases 0, a center of feature 0 and
neighbors of weight 1 and feature 1, the output at the center is 1/2
with one neighbor but 5/6 with five neighbors (and neither equals the
claimed self-transform-plus-neighbor-transform value 1): the node
degree does bias the result, through the self-loop's share of the mean. -/
theorem mean_aggregation_invariance_cex :
    layerForward layerParamsEx id (starX zeroVec oneVec) (starEdges 1)
        (some (starWeights 1 1)) 0 0 = 1/2 ∧
    layerForward layerParamsEx id (starX zeroVec oneVec) (starEdges 5)
        (some (starWeights 5 1)) 0 0 = 5/6 ∧
    ((1 : ℚ)/2 ≠ 5/6 ∧ (5 : ℚ)/6 ≠ 1) := by
  refine ⟨?_, ?_, by norm_num⟩
  · simp only [layerForward]
    rw [star_aggMean]
    norm_num [layerParamsEx, matVec, starX, zeroVec, oneVec, leakyReLU,
      Fin.sum_univ_one, Pi.smul_apply, Pi.add_apply, smul_eq_mul]
  · simp only [layerForward]
    rw [star_aggMean]
    norm_num [layerParamsEx, matVec, starX, zeroVec, oneVec, leakyReLU,
      Fin.sum_univ_one, Pi.smul_apply, Pi.add_apply, smul_eq_mul]

/-! ## Claim C4 -/

/-- The function `ratSigmoid` has the exact sigmoid properties the embedding uses. -/
theorem ratSigmoid_sigmoidLike : SigmoidLike ratSigmoid := by
  constructor
  · norm_num [ratSigmoid]
  · intro t
    rcases le_or_lt 0 t with h | h
    · rw [ratSigmoid, abs_of_nonneg h]
      have hd : 0 < 2 * (1 + t) := by linarith
      have hub : t / (2 * (1 + t)) < 1/2 := by
        rw [div_lt_iff₀ hd]
        linarith
      have hlb : 0 ≤ t / (2 * (1 + t)) := by positivity
      constructor
      · linarith
      · linarith
    · rw [ratSigmoid, abs_of_neg h]
      have hd : 0 < 2 * (1 + -t) := by linarith
      have hlb : (-1 : ℚ)/2 < t / (2 * (1 + -t)) := by
        rw [lt_div_iff₀ hd]
        linarith
      have hub : t / (2 * (1 + -t)) < 0 := div_neg_of_neg_of_pos h hd
      constructor
      · linarith
      · linarith

/-- Counterexample to claim C4 as stated: the cross-view exchange does
not fix points with `init_emb == part_emb`.  With all attention weights
zero the gate input is 0 and the gate is exactly 1/2; with
cross_transform the identity and the embedding the all-ones vector, the
updated initiator embedding is 1 + 1/2·1 = 3/2 ≠ 1, for any function
with the true sigmoid's exact properties (value 1/2 at 0, range inside
(0,1)), in eval mode (dropout = identity). -/
theorem cross_view_fixed_point_cex :
    ¬ (∀ (d : ℕ) (p : CrossParams d) (sig : ℚ → ℚ), SigmoidLike sig →
        ∀ e : Vec d, crossViewForward sig id p e e = (e, e)) := by
  intro h
  have h1 := congrFun (congrArg Prod.fst
    (h 1 crossParamsEx ratSigmoid ratSigmoid_sigmoidLike oneVec)) 0
  rw [show (crossViewForward ratSigmoid id crossParamsEx oneVec oneVec).1 0
      = 3/2 by norm_num [crossViewForward, crossParamsEx, oneVec, matVec,
        ratSigmoid, Fin.sum_univ_one]] at h1
  norm_num [oneVec] at h1

/-- Claim C4 (amended, see the counterexample above): when
`init_emb == part_emb = e`, the exchange adds `g·c` to the initiator
view and `(1-g)·c` to the participant view, where
`c = cross_transform(e)`; hence (in eval mode) the sum of the two
outputs exceeds the sum of the inputs by exactly `c`, and the
embeddings are left individually unchanged only when `c` vanishes. -/
theorem cross_view_exchange_total_drift {d : ℕ} (sig : ℚ → ℚ)
    (p : CrossParams d) (e : Vec d) :
    (fun k => (crossViewForward sig id p e e).1 k +
        (crossViewForward sig id p e e).2 k)
      = fun k => e k + e k + (matVec p.crossW e k + p.crossB k) := by
  funext k
  simp only [crossViewForward, id]
  ring

/-! ## Claims C2 and C3 -/

/-- Counterexample to claim C2 as stated: `predict_item_recommendations`
does not return the empty list — at a concrete forward output and
k = 5 the call raises TypeError (`self.model(user_data)` passes one
positional argument to the five-parameter `GBGCN.forward`) and the
exception propagates, which is not a return of []. -/
theorem predict_item_recommendations_cex :
    predictItemRecommendationsRun (gbgcnForwardDict [] [] [] [] [] [] []) 5
      = .error .typeError ∧
    (Except.error PyErr.typeError
      ≠ (Except.ok ([] : List (ℕ × ℚ)) : Except PyErr (List (ℕ × ℚ)))) := by
  exact ⟨rfl, by simp⟩

/-- Claim C2 (amended, see the counterexample above): for every user
and every k ≥ 1, `predict_item_recommendations` raises a TypeError —
the forward call binds one positional argument where `GBGCN.forward`
requires five — instead of returning a list; the empty-list return is
reachable only from an actual forward output dictionary, and even then
it would be taken, since that dictionary never contains the key
`item_recommendations`. -/
theorem predict_item_recommendations_raises (recScore succProb : List ℚ)
    (uInit uPart uSoc itemE comb : List (List ℚ)) (k : ℕ) (_hk : 1 ≤ k) :
    predictItemRecommendationsRun
        (gbgcnForwardDict recScore succProb uInit uPart uSoc itemE comb) k
      = .error .typeError ∧
    topKFromOutputs
        (gbgcnForwardDict recScore succProb uInit uPart uSoc itemE comb) k
      = [] :=
  ⟨rfl, rfl⟩

/-- Witness for C2: a concrete forward output and k = 5. -/
theorem predict_item_recommendations_raises_witness :
    1 ≤ 5 ∧
    (predictItemRecommendationsRun (gbgcnForwardDict [] [] [] [] [] [] []) 5
        = .error .typeError ∧
      topKFromOutputs (gbgcnForwardDict [] [] [] [] [] [] []) 5 = []) :=
  ⟨by decide,
    predict_item_recommendations_raises [] [] [] [] [] [] [] 5 (by decide)⟩

/-- Counterexample to claim C3 as stated: `predict_group_success` does
not return 0.5 — data preparation always succeeds (dummy-data
fallback), and then the forward call raises TypeError, which
propagates; an exception is not a return of 0.5. -/
theorem predict_group_success_cex :
    predictGroupSuccessRun (gbgcnForwardDict [] [] [] [] [] [] [])
      = .error .typeError ∧
    (Except.error PyErr.typeError
      ≠ (Except.ok ((1 : ℚ)/2) : Except PyErr ℚ)) := by
  exact ⟨rfl, by simp⟩

/-- Claim C3 (amended, see the counterexample above): for every group
whose data preparation succeeds (which is every group — the preparation
falls back to dummy data on any error), `predict_group_success` raises
a TypeError at the forward call instead of returning; the 0.5 default
is reachable only from an actual forward output dictionary, and even
then it would be taken, since that dictionary never contains the key
`group_success_prob`. -/
theorem predict_group_success_raises (recScore succProb : List ℚ)
    (uInit uPart uSoc itemE comb : List (List ℚ)) :
    predictGroupSuccessRun
        (gbgcnForwardDict recScore succProb uInit uPart uSoc itemE comb)
      = .error .typeError ∧
    groupSuccessFromOutputs
        (gbgcnForwardDict recScore succProb uInit uPart uSoc itemE comb)
      = 1/2 :=
  ⟨rfl, rfl⟩

/-! ## Claim C7 -/

/-- Claim C7 (confirmed): for every batch with a non-empty set of
ranking pairs, labels either absent or pairing to a non-empty list, and
a non-empty social-embedding batch, the total loss is finite and equals
the ranking term plus beta times the classification term plus the fixed
weight 1/1000 times the mean L2 norm of the social embeddings, each
side term written as the spec words it. -/
theorem loss_composition (beta : ℚ) (sig blog rsqrt : ℚ → ℚ)
    (preds : Predictions) (posMask negMask : List Bool)
    (labels? : Option (List ℚ)) (rows : List (List ℚ))
    (hpn : (maskSelect preds.recScore posMask).zip
      (maskSelect preds.recScore negMask) ≠ [])
    (hlab : labels? = none ∨
      ∃ ys, labels? = some ys ∧ preds.succProb.zip ys ≠ [])
    (hsoc : preds.socialEmb = some rows) (hrows : rows ≠ []) :
    gbgcnLossTotal beta sig blog rsqrt preds posMask negMask labels?
      = Fl.num
          (specRankingTerm sig blog (maskSelect preds.recScore posMask)
              (maskSelect preds.recScore negMask)
            + beta * specClsTerm blog preds.succProb labels?
            + (1/1000) * specRegTerm rsqrt rows) := by
  have hbpr : bprLoss sig blog (maskSelect preds.recScore posMask)
      (maskSelect preds.recScore negMask)
        = Fl.num (specRankingTerm sig blog (maskSelect preds.recScore posMask)
            (maskSelect preds.recScore negMask)) := by
    rw [bprLoss, meanFl, if_neg (by simpa using hpn)]
    simp [specRankingTerm]
  have hcls : successLoss blog preds.succProb labels?
      = Fl.num (specClsTerm blog preds.succProb labels?) := by
    rcases hlab with h | ⟨ys, hys, hne⟩
    · subst h
      rfl
    · subst hys
      rw [successLoss, meanFl, if_neg (by simpa using hne)]
      simp [specClsTerm]
  have hreg : socialReg rsqrt preds.socialEmb
      = Fl.num (specRegTerm rsqrt rows) := by
    rw [hsoc, socialReg, meanFl, if_neg (by simpa using hrows)]
    simp [specRegTerm]
  simp only [gbgcnLossTotal, hbpr, hcls, hreg, Fl.smul, Fl.add]

/-- Witness for C7: a concrete two-element batch with one labeled pair
and one social embedding row, the transcendental parameters
instantiated with the identity function. -/
theorem loss_composition_witness :
    gbgcnLossTotal (2/5) id id id
        { recScore := [1, 0], succProb := [1/2], socialEmb := some [[3]] }
        [true, false] [false, true] (some [1])
      = Fl.num
          (specRankingTerm id id [1] [0]
            + (2/5) * specClsTerm id [1/2] (some [1])
            + (1/1000) * specRegTerm id [[3]]) :=
  loss_composition (2/5) id id id
    { recScore := [1, 0], succProb := [1/2], socialEmb := some [[3]] }
    [true, false] [false, true] (some [1]) [[3]]
    (by decide) (Or.inr ⟨[1], rfl, by decide⟩) rfl (by decide)

/-! ## Claim C8 -/

/-- Counterexample to claim C8 as stated: a batch whose labeled-pair
set is empty because the labels tensor is present but empty makes the
classification term NaN (mean over zero elements), not 0, and the
total loss NaN even though the ranking and regularization terms are
finite. -/
theorem classification_term_empty_cex :
    successLoss id [] (some []) = Fl.nan ∧
    gbgcnLossTotal (2/5) id id id
        { recScore := [1, 0], succProb := [], socialEmb := some [[1]] }
        [true, false] [false, true] (some [])
      = Fl.nan ∧
    Fl.nan ≠ Fl.num 0 := by
  refine ⟨rfl, ?_, by decide⟩
  rfl

/-- Claim C8 (amended, see the counterexample above): the
classification term is 0 exactly when the batch carries no labels entry
at all; when a labels tensor is present the term is the mean binary
cross-entropy over the pairs it forms with the probability tensor,
which is NaN — not 0 — when that set of pairs is empty. -/
theorem classification_term_cases (blog : ℚ → ℚ) (probs : List ℚ) :
    successLoss blog probs none = Fl.num 0 ∧
    successLoss blog probs (some []) = Fl.nan ∧
    (∀ ys : List ℚ, probs.zip ys ≠ [] →
      successLoss blog probs (some ys)
        = Fl.num ((((probs.zip ys).map (fun py => bce blog py.1 py.2)).sum) /
            (((probs.zip ys).length : ℚ)))) := by
  refine ⟨rfl, ?_, ?_⟩
  · simp [successLoss, meanFl]
  · intro ys hne
    rw [successLoss, meanFl, if_neg (by simpa using hne)]
    simp

/-- Witness for C8: concrete probability tensor [1/2] with labels
absent, empty, and the singleton [1]. -/
theorem classification_term_cases_witness :
    successLoss id [1/2] none = Fl.num 0 ∧
    successLoss id [1/2] (some []) = Fl.nan ∧
    successLoss id [1/2] (some [1])
      = Fl.num (((([(1/2 : ℚ)].zip [1]).map
          (fun py => bce id py.1 py.2)).sum) /
            ((([(1/2 : ℚ)].zip [1]).length : ℚ))) :=
  ⟨(classification_term_cases id [1/2]).1,
    (classification_term_cases id [1/2]).2.1,
    (classification_term_cases id [1/2]).2.2 [1] (by decide)⟩

/-! ## Claim C9 -/

/-- Claim C9 (code bug): the divergence-safety behavior the spec
prescribes is unreachable — every training cycle with at least one
epoch raises TypeError at the first epoch's `self.model(train_data)`
call (one positional argument where `GBGCN.forward` requires five),
before any validation loss exists; the exception propagates out of
`train` with the trainer state untouched (no `save_model` call, no
last_training_time write), so the trainer can never train at all.  A
zero-epoch cycle raises UnboundLocalError at line 272 instead
(`epoch` is never bound). -/
theorem train_always_raises (st : TrainerState) (now patience n : ℕ)
    (out : List (String × TVal)) :
    trainerTrainRun st now (n + 1) patience out = (st, some PyErr.typeError) ∧
    trainerTrainRun st now 0 patience out
      = (st, some PyErr.unboundLocalError) := by
  constructor
  · cases st
    simp [trainerTrainRun, trainLoopRun, trainEpochRun, callForwardWith,
      forwardRequiredArgs, forwardMaxArgs]
  · rfl

/-! ## Claim C10 -/

/-- Claim C10 (confirmed): graph construction routes an interaction to
the initiator edge set exactly when its type is one of the two
initiator types (create_group, initiate) and to the participant edge
set otherwise — in particular view, click, share, join/join_group and
purchase all route to participant — and every interaction lands in
exactly one of the two edge sets (the lengths add up). -/
theorem edge_routing_partition (l : List (ℕ × ℕ × String)) :
    (routeInteractions l).1
        = (l.filter (fun t => isInitiatorType t.2.2)).map (fun t => (t.1, t.2.1)) ∧
    (routeInteractions l).2
        = (l.filter (fun t => !isInitiatorType t.2.2)).map (fun t => (t.1, t.2.1)) ∧
    (routeInteractions l).1.length + (routeInteractions l).2.length = l.length ∧
    (isInitiatorType "create_group" = true ∧ isInitiatorType "initiate" = true) ∧
    (isInitiatorType "view" = false ∧ isInitiatorType "click" = false ∧
      isInitiatorType "share" = false ∧ isInitiatorType "join" = false ∧
      isInitiatorType "join_group" = false ∧ isInitiatorType "purchase" = false) := by
  refine ⟨?_, ?_, ?_, by decide, by decide⟩
  · induction l with
    | nil => rfl
    | cons a t ih =>
      rcases a with ⟨u, i, ty⟩
      by_cases hty : isInitiatorType ty
      · simp [routeInteractions, List.filter_cons, hty, ih]
      · simp [routeInteractions, List.filter_cons, hty, ih]
  · induction l with
    | nil => rfl
    | cons a t ih =>
      rcases a with ⟨u, i, ty⟩
      by_cases hty : isInitiatorType ty
      · simp [routeInteractions, List.filter_cons, hty, ih]
      · simp [routeInteractions, List.filter_cons, hty, ih]
  · induction l with
    | nil => rfl
    | cons a t ih =>
      rcases a with ⟨u, i, ty⟩
      by_cases hty : isInitiatorType ty
      · simp only [routeInteractions, hty, if_true, List.length_cons]
        omega
      · simp only [routeInteractions, hty, Bool.false_eq_true, if_false,
          List.length_cons]
        omega

/-! ## Claim C1 -/

/-- Counterexample to claim C1 as stated: with no model snapshot ever
published, (i) the trainer initializes a fresh in-memory model and
`is_ready` reports true, not false, and (ii) the serving endpoint's
popularity query returns the empty list when the catalog holds no
active item (so for k = 5 the result is neither non-empty nor of
length k). -/
theorem cold_start_fallback_cex :
    trainerIsReady (initializeTrainer false) = true ∧
    recommendItemsEndpoint [] 5 = [] := by
  exact ⟨rfl, rfl⟩

/-- Claim C1 (amended, see the counterexample above): with no published
snapshot, the serving endpoint answers the recommendation query from
the catalog alone — the active items ordered by popularity descending,
truncated to the requested k, hence of length min k (number of active
items), possibly shorter than k or empty — and the trainer reports
is_ready true as soon as it has initialized (initialization builds a
fresh model even when no snapshot file exists). -/
theorem cold_start_degraded_behavior (items : List ItemRow) (k : ℕ) :
    List.Sorted popGe (recommendItemsEndpoint items k) ∧
    (recommendItemsEndpoint items k).length
        = min k (items.filter (fun it => it.isActive)).length ∧
    (∀ it ∈ recommendItemsEndpoint items k, it ∈ items ∧ it.isActive = true) ∧
    trainerIsReady (initializeTrainer false) = true := by
  refine ⟨?_, ?_, ?_, rfl⟩
  · exact List.Pairwise.sublist (List.take_sublist k _)
      (List.sorted_insertionSort popGe _)
  · rw [recommendItemsEndpoint, List.length_take,
      (List.perm_insertionSort popGe _).length_eq]
  · intro it hit
    have h2 : it ∈ (items.filter (fun it => it.isActive)).insertionSort popGe :=
      List.mem_of_mem_take hit
    have h3 : it ∈ items.filter (fun it => it.isActive) :=
      (List.perm_insertionSort popGe _).mem_iff.mp h2
    exact ⟨(List.mem_filter.mp h3).1, (List.mem_filter.mp h3).2⟩

end GB
